import Mathlib

/-!
Shallow embedding of the MemAi client-side data-collection and sync layer.

Each definition is translated from the repository source:
  - the chat screen (message cache, merge, send, completion-backend retry),
  - the photo / calendar / location collector hooks,
  - the collection coordinator's error aggregation,
  - the query engine's date-window computation.

External services (the remote store, geocoder, completion backend, network
probe, permission system) are modelled as explicit inputs: the remote table
is a list of rows, the geocoder is a function argument, the outcome of each
network attempt is an oracle indexed by attempt number, and connectivity /
session state are plain values read exactly where the source reads them.
Machine floats (geo coordinates) carry no arithmetic in the claims and are
modelled as integers; timestamps are epoch milliseconds as integers.
-/

namespace MemAi

/-! ### Message data model (chat screen, `type Message`)

Fields not touched by any claim (photos, reactions, topic, extension,
payload, event, private, istyping) are omitted. -/

inductive MessageType
  | user
  | assistant
  | system
deriving Repr, DecidableEq

structure Message where
  id : String
  type : MessageType
  content : String
  timestamp : Int
  is_error : Bool := false
deriving Repr, DecidableEq

/-- Comparator used by `loadCachedMessages`:
`(a, b) => a.timestamp.getTime() - b.timestamp.getTime()`, i.e. sort by
timestamp, non-strictly. -/
def msgLE (a b : Message) : Prop := a.timestamp ≤ b.timestamp

instance : DecidableRel msgLE := fun a b =>
  inferInstanceAs (Decidable (a.timestamp ≤ b.timestamp))

instance : IsTotal Message msgLE := ⟨fun a b => le_total a.timestamp b.timestamp⟩

instance : IsTrans Message msgLE := ⟨fun _ _ _ h1 h2 => le_trans h1 h2⟩

/-- The merge step of `loadCachedMessages`:

    const existingIds = new Set(prev.map(m => m.id));
    const uniqueNewMessages = newMessages.filter(m => !existingIds.has(m.id));
    return [...prev, ...uniqueNewMessages].sort((a, b) =>
      a.timestamp.getTime() - b.timestamp.getTime());

`Array.prototype.sort` with this comparator is modelled by a sort with
respect to `msgLE`. -/
def mergeMessages (prev newMessages : List Message) : List Message :=
  let existingIds := prev.map (fun m => m.id)
  let uniqueNewMessages := newMessages.filter (fun m => decide (m.id ∉ existingIds))
  List.insertionSort msgLE (prev ++ uniqueNewMessages)

/-- Connectivity / store error distinction made by the chat screen's catch
blocks: a `TypeError` with message "Network request failed" is treated
differently from every other failure. -/
inductive RequestError
  | networkRequestFailed
  | storeRejected
deriving Repr, DecidableEq

/-- Error string set by `loadCachedMessages` on a non-network failure. -/
def loadFailedMsg : String := "Failed to load messages"

/-- The whole `loadCachedMessages` operation.

Inputs: the current session (or `none`), the locally cached list (or `none`
when the cache file is absent/corrupt), live connectivity as reported by
`NetInfo.fetch()`, the outcome of the remote `select` ordered by timestamp,
and the in-memory message list. Output: the new in-memory list and the
error string set, if any. -/
def loadCachedMessages (session : Option String)
    (cached : Option (List Message)) (connected : Bool)
    (remote : Except RequestError (List Message))
    (current : List Message) : List Message × Option String :=
  match session with
  | none => (current, none)
  | some _ =>
    let current := match cached with
      | some cm => cm
      | none => current
    if ¬ connected then (current, none)
    else
      match remote with
      | Except.ok data => (mergeMessages current data, none)
      | Except.error RequestError.networkRequestFailed => (current, none)
      | Except.error RequestError.storeRejected => (current, some loadFailedMsg)

end MemAi

namespace MemAi

/-! ### Claim C1 -/

/-- Helper: ids of a message list. -/
def msgIds (l : List Message) : List String := l.map (fun m => m.id)

theorem mergeMessages_perm (prev newMessages : List Message) :
    List.Perm (mergeMessages prev newMessages)
      (prev ++ newMessages.filter (fun m => decide (m.id ∉ msgIds prev))) := by
  unfold mergeMessages msgIds
  exact List.perm_insertionSort msgLE _

/-- Claim C1 (amended): merging the locally cached list with the incoming
remote list keeps exactly the local entries plus those remote entries whose
id does not already occur locally (local wins on collision); when each input
list has pairwise-distinct ids, so does the result; and the result is sorted
non-strictly ascending (that is, non-decreasing) by timestamp. -/
theorem mergeMessages_dedup_sorted (prev newMessages : List Message)
    (hp : (msgIds prev).Nodup) (hn : (msgIds newMessages).Nodup) :
    (∀ m : Message, m ∈ mergeMessages prev newMessages ↔
      m ∈ prev ∨ (m ∈ newMessages ∧ m.id ∉ msgIds prev))
    ∧ (msgIds (mergeMessages prev newMessages)).Nodup
    ∧ List.Sorted msgLE (mergeMessages prev newMessages) := by
  have hperm := mergeMessages_perm prev newMessages
  refine ⟨?_, ?_, ?_⟩
  · intro m
    rw [hperm.mem_iff, List.mem_append, List.mem_filter]
    simp only [decide_eq_true_eq]
  · have hids := hperm.map (fun m : Message => m.id)
    have h2 : (msgIds (mergeMessages prev newMessages)).Nodup ↔
        ((prev ++ newMessages.filter (fun m => decide (m.id ∉ msgIds prev))).map
          (fun m : Message => m.id)).Nodup := hids.nodup_iff
    rw [h2, List.map_append, List.nodup_append]
    refine ⟨hp, ?_, ?_⟩
    · exact hn.sublist (List.Sublist.map (fun m : Message => m.id)
        (List.filter_sublist _))
    · intro x hx hx'
      rcases List.mem_map.mp hx' with ⟨m, hm, rfl⟩
      rcases List.mem_filter.mp hm with ⟨_, hpred⟩
      exact (decide_eq_true_eq.mp hpred) hx
  · exact List.sorted_insertionSort msgLE _

def msgA : Message := ⟨"a", MessageType.user, "hello", 5, false⟩

def msgB : Message := ⟨"b", MessageType.assistant, "hi", 5, false⟩

/-- Claim C1, counterexample to the claim as stated: two messages with
distinct ids but equal timestamps merge into a list that contains both ids
exactly once yet is NOT sorted strictly ascending by timestamp. -/
theorem mergeMessages_not_strictly_sorted :
    msgIds (mergeMessages [msgA] [msgB]) = [msgA.id, msgB.id]
    ∧ ¬ List.Pairwise (fun a b : Message => a.timestamp < b.timestamp)
        (mergeMessages [msgA] [msgB]) := by
  constructor
  · rfl
  · decide

/-- Witness for the amended C1 theorem at concrete input. -/
theorem mergeMessages_dedup_sorted_witness :
    (∀ m : Message, m ∈ mergeMessages [msgA] [msgB] ↔
      m ∈ [msgA] ∨ (m ∈ [msgB] ∧ m.id ∉ msgIds [msgA]))
    ∧ (msgIds (mergeMessages [msgA] [msgB])).Nodup
    ∧ List.Sorted msgLE (mergeMessages [msgA] [msgB]) :=
  mergeMessages_dedup_sorted [msgA] [msgB] (by decide) (by decide)

end MemAi

namespace MemAi

/-! ### Photo Collector (`usePhotoSync.ts`, `syncPhotos`)

The remote `photo_logs` table is a list of rows visible to the client. The
`.single()` lookup returns the row when exactly one matches; with zero OR
with several matching rows it fails with code PGRST116 ("JSON object
requested, multiple (or no) rows returned"), which the source tolerates
(`queryError.code !== 'PGRST116'` does not fire), leaving the data null —
so the insert runs in both of those cases. Request failures of the store
itself live outside this pure model. -/

structure PhotoRecord where
  user_id : String
  file_uri : String
  timestamp : Int
  location_label : Option String
deriving Repr, DecidableEq

structure GeoPlace where
  city : Option String
  country : Option String
deriving Repr, DecidableEq

structure PhotoAsset where
  uri : String
  creationTime : Int
  hasLocation : Bool
deriving Repr, DecidableEq

/-- JS `String.prototype.trim`, modelled over the character list (the
library `String.trim` does not reduce inside the kernel). -/
def jsTrim (s : String) : String :=
  String.mk (((s.data.dropWhile Char.isWhitespace).reverse.dropWhile
    Char.isWhitespace).reverse)

/-- Location enrichment of `syncPhotos`: build
a coarse label from the geocoder result, `null` on empty. -/
def photoLabel (getPlace : PhotoAsset → Option GeoPlace) (asset : PhotoAsset) :
    Option String :=
  if asset.hasLocation then
    match getPlace asset with
    | some place =>
      let s := jsTrim ((place.city.getD "") ++ ", " ++ (place.country.getD ""))
      if s = "" then none else some s
    | none => none
  else none

/-- One iteration of the `for (const asset of assets)` loop in `syncPhotos`:
the lookup by `file_uri` (no `user_id` condition) suppresses the insert
exactly when it matched a single row; with zero or with several matching
rows `.single()` fails with PGRST116, `existingPhoto` stays null, and the
insert runs. -/
def syncPhotoAsset (getPlace : PhotoAsset → Option GeoPlace) (userId : String)
    (store : List PhotoRecord) (asset : PhotoAsset) : List PhotoRecord :=
  match store.filter (fun r => r.file_uri == asset.uri) with
  | [_] => store
  | _ => store ++ [⟨userId, asset.uri, asset.creationTime, photoLabel getPlace asset⟩]

/-- The asset loop of `syncPhotos`. In the pure store model neither the
lookup nor the insert can fail, so the loop is a plain fold; a real
mid-loop request failure would keep the rows already inserted (no
rollback). -/
def syncPhotosLoop (getPlace : PhotoAsset → Option GeoPlace) (userId : String) :
    List PhotoRecord → List PhotoAsset → List PhotoRecord
  | store, [] => store
  | store, asset :: rest =>
    syncPhotosLoop getPlace userId (syncPhotoAsset getPlace userId store asset) rest

inductive PermissionStatus
  | granted
  | denied
  | undetermined
deriving Repr, DecidableEq

def photoPermissionDeniedMsg : String := "Permission to access photos was denied"

/-- One poll cycle of the Photo Collector: the media-library permission
state, the current auth user, the assets the library returned for today
(already capped at 50 by the query), and the geocoder. -/
structure PhotoSyncEnv where
  permission : PermissionStatus
  user : Option String
  assets : List PhotoAsset
  getPlace : PhotoAsset → Option GeoPlace

/-- `syncPhotos`: permission gate (sets a visible error and skips), silent
abort without a user, then the per-asset dedup loop. -/
def syncPhotos (env : PhotoSyncEnv) (store : List PhotoRecord) :
    List PhotoRecord × Option String :=
  match env.permission with
  | PermissionStatus.granted =>
    match env.user with
    | none => (store, none)
    | some uid => (syncPhotosLoop env.getPlace uid store env.assets, none)
  | _ => (store, some photoPermissionDeniedMsg)

/-- Sequentially completed poll cycles: each cycle runs against the store
left by the previous one. -/
def runPhotoPolls (store : List PhotoRecord) : List PhotoSyncEnv → List PhotoRecord
  | [] => store
  | env :: rest => runPhotoPolls (syncPhotos env store).1 rest

/-- Number of visible rows holding a given `file_uri`. -/
def uriCount (store : List PhotoRecord) (uri : String) : Nat :=
  (store.filter (fun r => r.file_uri == uri)).length

end MemAi

namespace MemAi

/-! ### Claim C2 -/

theorem insertedPhoto_uriCount (getPlace : PhotoAsset → Option GeoPlace)
    (userId : String) (asset : PhotoAsset) (uri : String)
    (huri : ¬ asset.uri = uri) :
    (([⟨userId, asset.uri, asset.creationTime, photoLabel getPlace asset⟩] :
      List PhotoRecord).filter (fun r => r.file_uri == uri)).length = 0 := by
  have hne : (asset.uri == uri) = false := by
    simp [huri]
  simp only [List.filter_cons, List.filter_nil]
  rw [show ((⟨userId, asset.uri, asset.creationTime,
    photoLabel getPlace asset⟩ : PhotoRecord).file_uri == uri) = false from hne]
  rfl

theorem syncPhotoAsset_uriCount (getPlace : PhotoAsset → Option GeoPlace)
    (userId : String) (store : List PhotoRecord) (asset : PhotoAsset)
    (uri : String) (h : uriCount store uri ≤ 1) :
    uriCount (syncPhotoAsset getPlace userId store asset) uri ≤ 1 := by
  rcases hfil : store.filter (fun r => r.file_uri == asset.uri) with _ | ⟨x, _ | ⟨y, t⟩⟩
  · have hstep : syncPhotoAsset getPlace userId store asset = store ++
        [⟨userId, asset.uri, asset.creationTime, photoLabel getPlace asset⟩] := by
      unfold syncPhotoAsset
      rw [hfil]
    rw [hstep]
    unfold uriCount at h ⊢
    rw [List.filter_append, List.length_append]
    by_cases huri : asset.uri = uri
    · subst huri
      have h0 : (store.filter (fun r => r.file_uri == asset.uri)).length = 0 := by
        rw [hfil]; rfl
      simp only [h0]
      simp
    · have h1 := insertedPhoto_uriCount getPlace userId asset uri huri
      omega
  · have hstep : syncPhotoAsset getPlace userId store asset = store := by
      unfold syncPhotoAsset
      rw [hfil]
    rw [hstep]
    exact h
  · have hstep : syncPhotoAsset getPlace userId store asset = store ++
        [⟨userId, asset.uri, asset.creationTime, photoLabel getPlace asset⟩] := by
      unfold syncPhotoAsset
      rw [hfil]
    rw [hstep]
    unfold uriCount at h ⊢
    rw [List.filter_append, List.length_append]
    by_cases huri : asset.uri = uri
    · exfalso
      subst huri
      rw [hfil, List.length_cons, List.length_cons] at h
      omega
    · have h1 := insertedPhoto_uriCount getPlace userId asset uri huri
      omega

theorem syncPhotosLoop_uriCount (getPlace : PhotoAsset → Option GeoPlace)
    (userId : String) (assets : List PhotoAsset) :
    ∀ store uri, uriCount store uri ≤ 1 →
      uriCount (syncPhotosLoop getPlace userId store assets) uri ≤ 1 := by
  induction assets with
  | nil => intro store uri h; exact h
  | cons asset rest ih =>
    intro store uri h
    unfold syncPhotosLoop
    exact ih _ uri (syncPhotoAsset_uriCount getPlace userId store asset uri h)

theorem syncPhotos_uriCount (env : PhotoSyncEnv) (store : List PhotoRecord)
    (uri : String) (h : uriCount store uri ≤ 1) :
    uriCount (syncPhotos env store).1 uri ≤ 1 := by
  unfold syncPhotos
  rcases env.permission with _ | _ | _
  · rcases env.user with _ | uid
    · exact h
    · exact syncPhotosLoop_uriCount env.getPlace uid env.assets store uri h
  · exact h
  · exact h

/-- Claim C2: starting from a store holding at most one row for a given
`file_uri`, any sequence of sequentially completed Photo Collector poll
cycles leaves at most one row for that `file_uri`: every cycle looks the
uri up before inserting, and — with at most one visible row — the insert
fires exactly when nothing was found. -/
theorem photo_dedup_invariant (polls : List PhotoSyncEnv)
    (store : List PhotoRecord) (uri : String) (h : uriCount store uri ≤ 1) :
    uriCount (runPhotoPolls store polls) uri ≤ 1 := by
  induction polls generalizing store with
  | nil => exact h
  | cons env rest ih =>
    exact ih (syncPhotos env store).1 (syncPhotos_uriCount env store uri h)

def sampleUri : String := "ph://asset-1"

def sampleAsset : PhotoAsset := ⟨sampleUri, 1700000000000, false⟩

def samplePhotoPoll : PhotoSyncEnv :=
  ⟨PermissionStatus.granted, some "user-1", [sampleAsset, sampleAsset], fun _ => none⟩

/-- Witness for C2: two poll cycles (each observing the same asset twice)
over an initially empty store leave at most one row for the uri. -/
theorem photo_dedup_invariant_witness :
    uriCount (runPhotoPolls [] [samplePhotoPoll, samplePhotoPoll]) sampleUri ≤ 1 :=
  photo_dedup_invariant [samplePhotoPoll, samplePhotoPoll] [] sampleUri (by decide)

end MemAi

namespace MemAi

/-! ### Calendar Collector (`useCalendarSync.ts`, `syncCalendar`)

Device calendars are enumerated, restricted to those the user can modify;
their events for today arrive from the OS calendar API. The remote
`calendar_events` dedup lookup filters on title, start_time and end_time
(again with no `user_id` condition) through `.single()`, whose PGRST116
failure — raised for zero AND for several matching rows alike — the source
tolerates, inserting in both of those cases. -/

structure CalendarEventRecord where
  user_id : String
  title : String
  start_time : Int
  end_time : Int
  notes : Option String
deriving Repr, DecidableEq

structure DeviceEvent where
  title : String
  startDate : Int
  endDate : Int
  notes : Option String
deriving Repr, DecidableEq

structure DeviceCalendar where
  allowsModifications : Bool
  events : List DeviceEvent
deriving Repr, DecidableEq

/-- Dedup-key predicate of the calendar lookup. -/
def eventKeyMatch (r : CalendarEventRecord) (title : String)
    (start_time end_time : Int) : Bool :=
  r.title == title && r.start_time == start_time && r.end_time == end_time

/-- One iteration of the `for (const event of events)` loop in
`syncCalendar`: the key lookup suppresses the insert exactly when it
matched a single row; with zero or with several matching rows `.single()`
fails with PGRST116, `existingEvent` stays null, and the insert runs. -/
def syncCalendarEvent (userId : String) (store : List CalendarEventRecord)
    (event : DeviceEvent) : List CalendarEventRecord :=
  match store.filter (fun r => eventKeyMatch r event.title event.startDate event.endDate) with
  | [_] => store
  | _ => store ++ [⟨userId, event.title, event.startDate, event.endDate, event.notes⟩]

/-- The inner event loop; a plain fold, as in the photo collector. -/
def syncCalendarEventsLoop (userId : String) :
    List CalendarEventRecord → List DeviceEvent → List CalendarEventRecord
  | store, [] => store
  | store, event :: rest =>
    syncCalendarEventsLoop userId (syncCalendarEvent userId store event) rest

/-- The outer loop over the modifiable calendars. -/
def syncCalendarLoop (userId : String) :
    List CalendarEventRecord → List DeviceCalendar → List CalendarEventRecord
  | store, [] => store
  | store, cal :: rest =>
    syncCalendarLoop userId (syncCalendarEventsLoop userId store cal.events) rest

def calendarPermissionDeniedMsg : String := "Permission to access calendar was denied"

/-- One poll cycle of the Calendar Collector. -/
structure CalendarSyncEnv where
  permission : PermissionStatus
  user : Option String
  calendars : List DeviceCalendar
deriving Repr, DecidableEq

/-- `syncCalendar`: permission gate, silent abort without a user, then the
dedup loop over the modifiable calendars. -/
def syncCalendar (env : CalendarSyncEnv) (store : List CalendarEventRecord) :
    List CalendarEventRecord × Option String :=
  match env.permission with
  | PermissionStatus.granted =>
    match env.user with
    | none => (store, none)
    | some uid =>
      (syncCalendarLoop uid store (env.calendars.filter (fun c => c.allowsModifications)),
        none)
  | _ => (store, some calendarPermissionDeniedMsg)

def runCalendarPolls (store : List CalendarEventRecord) :
    List CalendarSyncEnv → List CalendarEventRecord
  | [] => store
  | env :: rest => runCalendarPolls (syncCalendar env store).1 rest

/-- Number of visible rows holding a given (title, start_time, end_time). -/
def eventKeyCount (store : List CalendarEventRecord) (title : String)
    (start_time end_time : Int) : Nat :=
  (store.filter (fun r => eventKeyMatch r title start_time end_time)).length

end MemAi

namespace MemAi

/-! ### Claim C3 -/

theorem insertedEvent_keyCount (userId : String) (event : DeviceEvent)
    (title : String) (st et : Int)
    (hkey : ¬ (event.title = title ∧ event.startDate = st ∧ event.endDate = et)) :
    (([⟨userId, event.title, event.startDate, event.endDate, event.notes⟩] :
      List CalendarEventRecord).filter
        (fun r => eventKeyMatch r title st et)).length = 0 := by
  have hne : eventKeyMatch
      (⟨userId, event.title, event.startDate, event.endDate, event.notes⟩ :
        CalendarEventRecord) title st et = false := by
    unfold eventKeyMatch
    simp only [Bool.and_eq_false_iff]
    by_cases h1 : event.title = title
    · by_cases h2 : event.startDate = st
      · right
        have h3 : ¬ event.endDate = et := fun h3 => hkey ⟨h1, h2, h3⟩
        simp [h3]
      · left; right; simp [h2]
    · left; left; simp [h1]
  simp only [List.filter_cons, List.filter_nil]
  rw [hne]
  rfl

theorem syncCalendarEvent_keyCount (userId : String)
    (store : List CalendarEventRecord) (event : DeviceEvent)
    (title : String) (st et : Int) (h : eventKeyCount store title st et ≤ 1) :
    eventKeyCount (syncCalendarEvent userId store event) title st et ≤ 1 := by
  rcases hfil : store.filter
      (fun r => eventKeyMatch r event.title event.startDate event.endDate) with
    _ | ⟨x, _ | ⟨y, t⟩⟩
  · have hstep : syncCalendarEvent userId store event = store ++
        [⟨userId, event.title, event.startDate, event.endDate, event.notes⟩] := by
      unfold syncCalendarEvent
      rw [hfil]
    rw [hstep]
    unfold eventKeyCount at h ⊢
    rw [List.filter_append, List.length_append]
    by_cases hkey : event.title = title ∧ event.startDate = st ∧ event.endDate = et
    · rcases hkey with ⟨rfl, rfl, rfl⟩
      have h0 : (store.filter
          (fun r => eventKeyMatch r event.title event.startDate event.endDate)).length = 0 := by
        rw [hfil]; rfl
      rw [h0]
      have hsing : (([⟨userId, event.title, event.startDate, event.endDate,
          event.notes⟩] : List CalendarEventRecord).filter
            (fun r => eventKeyMatch r event.title event.startDate event.endDate)).length ≤ 1 := by
        simp [List.filter_cons]
        split <;> simp
      omega
    · have h1 := insertedEvent_keyCount userId event title st et hkey
      omega
  · have hstep : syncCalendarEvent userId store event = store := by
      unfold syncCalendarEvent
      rw [hfil]
    rw [hstep]
    exact h
  · have hstep : syncCalendarEvent userId store event = store ++
        [⟨userId, event.title, event.startDate, event.endDate, event.notes⟩] := by
      unfold syncCalendarEvent
      rw [hfil]
    rw [hstep]
    unfold eventKeyCount at h ⊢
    rw [List.filter_append, List.length_append]
    by_cases hkey : event.title = title ∧ event.startDate = st ∧ event.endDate = et
    · exfalso
      rcases hkey with ⟨rfl, rfl, rfl⟩
      rw [hfil, List.length_cons, List.length_cons] at h
      omega
    · have h1 := insertedEvent_keyCount userId event title st et hkey
      omega

theorem syncCalendarEventsLoop_keyCount (userId : String) (events : List DeviceEvent) :
    ∀ store title st et, eventKeyCount store title st et ≤ 1 →
      eventKeyCount (syncCalendarEventsLoop userId store events) title st et ≤ 1 := by
  induction events with
  | nil => intro store title st et h; exact h
  | cons event rest ih =>
    intro store title st et h
    unfold syncCalendarEventsLoop
    exact ih _ title st et (syncCalendarEvent_keyCount userId store event title st et h)

theorem syncCalendarLoop_keyCount (userId : String) (cals : List DeviceCalendar) :
    ∀ store title st et, eventKeyCount store title st et ≤ 1 →
      eventKeyCount (syncCalendarLoop userId store cals) title st et ≤ 1 := by
  induction cals with
  | nil => intro store title st et h; exact h
  | cons cal rest ih =>
    intro store title st et h
    unfold syncCalendarLoop
    exact ih _ title st et
      (syncCalendarEventsLoop_keyCount userId cal.events store title st et h)

theorem syncCalendar_keyCount (env : CalendarSyncEnv)
    (store : List CalendarEventRecord) (title : String) (st et : Int)
    (h : eventKeyCount store title st et ≤ 1) :
    eventKeyCount (syncCalendar env store).1 title st et ≤ 1 := by
  unfold syncCalendar
  rcases env.permission with _ | _ | _
  · rcases env.user with _ | uid
    · exact h
    · exact syncCalendarLoop_keyCount uid _ store title st et h
  · exact h
  · exact h

/-- Claim C3: starting from a store holding at most one row for a given
(title, start_time, end_time), any sequence of sequentially completed
Calendar Collector poll cycles leaves at most one row for that key: every
cycle looks the key up before inserting, and — with at most one visible
row — the insert fires exactly when nothing was found. -/
theorem calendar_dedup_invariant (polls : List CalendarSyncEnv)
    (store : List CalendarEventRecord) (title : String) (st et : Int)
    (h : eventKeyCount store title st et ≤ 1) :
    eventKeyCount (runCalendarPolls store polls) title st et ≤ 1 := by
  induction polls generalizing store with
  | nil => exact h
  | cons env rest ih =>
    exact ih (syncCalendar env store).1 (syncCalendar_keyCount env store title st et h)

def sampleTitle : String := "Team sync"

def sampleEvent : DeviceEvent := ⟨sampleTitle, 1700000000000, 1700003600000, none⟩

def sampleCalendarPoll : CalendarSyncEnv :=
  ⟨PermissionStatus.granted, some "user-1", [⟨true, [sampleEvent, sampleEvent]⟩]⟩

/-- Witness for C3: two poll cycles observing the same event twice over an
initially empty store leave at most one row for the key. -/
theorem calendar_dedup_invariant_witness :
    eventKeyCount (runCalendarPolls [] [sampleCalendarPoll, sampleCalendarPoll])
      sampleTitle 1700000000000 1700003600000 ≤ 1 :=
  calendar_dedup_invariant [sampleCalendarPoll, sampleCalendarPoll] []
    sampleTitle 1700000000000 1700003600000 (by decide)

end MemAi

namespace MemAi

/-! ### Claim C10 -/

def otherUserPhoto : PhotoRecord := ⟨"user-2", sampleUri, 1690000000000, none⟩

def otherUserEvent : CalendarEventRecord :=
  ⟨"user-2", sampleTitle, 1700000000000, 1700003600000, none⟩

def thirdUserPhoto : PhotoRecord := ⟨"user-3", sampleUri, 1695000000000, none⟩

def thirdUserEvent : CalendarEventRecord :=
  ⟨"user-3", sampleTitle, 1700000000000, 1700003600000, none⟩

/-- Claim C10 (amended): the pre-insert existence checks filter only on the
dedup-key columns and carry no `user_id` condition, so a SINGLE visible row
with the same `file_uri` (photos) or the same (title, start_time, end_time)
(calendar) — whoever created it — suppresses the insert for the current
user; with two or more matching visible rows, however, the `.single()`
lookup fails with PGRST116, which the source reads as "no record found",
and the insert proceeds (see the counterexample theorem). -/
theorem dedup_check_ignores_user (getPlace : PhotoAsset → Option GeoPlace)
    (userId : String) (pstore : List PhotoRecord) (asset : PhotoAsset)
    (estore : List CalendarEventRecord) (event : DeviceEvent)
    (hp : uriCount pstore asset.uri = 1)
    (he : eventKeyCount estore event.title event.startDate event.endDate = 1) :
    syncPhotosLoop getPlace userId pstore [asset] = pstore
    ∧ syncCalendarEventsLoop userId estore [event] = estore := by
  constructor
  · rcases hfil : pstore.filter (fun r => r.file_uri == asset.uri) with _ | ⟨x, _ | ⟨y, t⟩⟩
    · exfalso
      unfold uriCount at hp
      rw [hfil] at hp
      exact absurd hp (by simp)
    · have hstep : syncPhotoAsset getPlace userId pstore asset = pstore := by
        unfold syncPhotoAsset
        rw [hfil]
      unfold syncPhotosLoop
      exact hstep
    · exfalso
      unfold uriCount at hp
      rw [hfil, List.length_cons, List.length_cons] at hp
      omega
  · rcases hfil : estore.filter
        (fun r => eventKeyMatch r event.title event.startDate event.endDate) with
      _ | ⟨x, _ | ⟨y, t⟩⟩
    · exfalso
      unfold eventKeyCount at he
      rw [hfil] at he
      exact absurd he (by simp)
    · have hstep : syncCalendarEvent userId estore event = estore := by
        unfold syncCalendarEvent
        rw [hfil]
      unfold syncCalendarEventsLoop
      exact hstep
    · exfalso
      unfold eventKeyCount at he
      rw [hfil, List.length_cons, List.length_cons] at he
      omega

/-- Witness for the amended C10 theorem: a single row created by a
different user (`user-2`) with the same dedup key suppresses the insert for
`user-1`. -/
theorem dedup_check_ignores_user_witness :
    syncPhotosLoop (fun _ => none) "user-1" [otherUserPhoto] [sampleAsset] =
      [otherUserPhoto]
    ∧ syncCalendarEventsLoop "user-1" [otherUserEvent] [sampleEvent] =
      [otherUserEvent] :=
  dedup_check_ignores_user (fun _ => none) "user-1" [otherUserPhoto] sampleAsset
    [otherUserEvent] sampleEvent (by decide) (by decide)

/-- Claim C10, counterexample to the claim as stated: with TWO visible rows
sharing the dedup key (created by `user-2` and `user-3`), the `.single()`
lookup fails with PGRST116, which the source treats exactly like "no record
found", and the insert for the current user proceeds — the existing
records do NOT suppress it. -/
theorem dedup_multi_row_insert_not_suppressed :
    syncPhotosLoop (fun _ => none) "user-1" [otherUserPhoto, thirdUserPhoto]
        [sampleAsset] =
      [otherUserPhoto, thirdUserPhoto,
        ⟨"user-1", sampleUri, 1700000000000, none⟩]
    ∧ syncCalendarEventsLoop "user-1" [otherUserEvent, thirdUserEvent]
        [sampleEvent] =
      [otherUserEvent, thirdUserEvent,
        ⟨"user-1", sampleTitle, 1700000000000, 1700003600000, none⟩] := by
  exact ⟨by decide, by decide⟩

end MemAi

namespace MemAi

/-! ### Local Cache and Offline Queue (`cacheChatMessages`)

The source: read session (abort silently when absent), write the full
message list to the local cache file, probe connectivity (skip the remote
sync when offline), then upsert with at most `maxRetries = 3` attempts and
delay `retryDelay * 2 ^ (retryCount - 1)` after the `retryCount`-th
failure; on the final failure the error is rethrown to the outer catch,
which swallows a network `TypeError` and otherwise sets a visible error and
marks the state offline. -/

def willSyncMsg : String :=
  "Failed to save messages. They will be saved when you are back online."

structure CacheEnv where
  session : Option String
  connected : Bool
  upsertOutcome : Nat → Option RequestError

structure CacheOutcome where
  localCache : Option (List Message)
  upsertAttempts : Nat
  delays : List Nat
  errorMsg : Option String
  markedOffline : Bool
deriving Repr, DecidableEq

/-- The `while (retryCount < maxRetries)` upsert loop, recursing on the
remaining loop iterations (`fuel` = `maxRetries - retryCount` at entry).
Returns (attempts made, delays waited, error rethrown if any). -/
def runUpserts (outcome : Nat → Option RequestError) (retryCount : Nat) :
    Nat → Nat × List Nat × Option RequestError
  | 0 => (0, [], none)
  | fuel + 1 =>
    match outcome retryCount with
    | none => (1, [], none)
    | some e =>
      if retryCount + 1 = 3 then (1, [], some e)
      else
        let r := runUpserts outcome (retryCount + 1) fuel
        (r.1 + 1, 1000 * 2 ^ retryCount :: r.2.1, r.2.2)

/-- `cacheChatMessages`, with the local cache content threaded through. -/
def cacheChatMessages (env : CacheEnv) (messages : List Message)
    (localCache : Option (List Message)) : CacheOutcome :=
  match env.session with
  | none => ⟨localCache, 0, [], none, false⟩
  | some _ =>
    let localCache := some messages
    if ¬ env.connected then ⟨localCache, 0, [], none, false⟩
    else
      let r := runUpserts env.upsertOutcome 0 3
      match r.2.2 with
      | none => ⟨localCache, r.1, r.2.1, none, false⟩
      | some RequestError.networkRequestFailed => ⟨localCache, r.1, r.2.1, none, false⟩
      | some RequestError.storeRejected => ⟨localCache, r.1, r.2.1, some willSyncMsg, true⟩

end MemAi

namespace MemAi

/-! ### Claim C6 -/

theorem runUpserts_le (outcome : Nat → Option RequestError) :
    ∀ fuel retryCount, (runUpserts outcome retryCount fuel).1 ≤ fuel := by
  intro fuel
  induction fuel with
  | zero => intro rc; exact Nat.le_refl 0
  | succ n ih =>
    intro rc
    unfold runUpserts
    rcases outcome rc with _ | e
    · exact Nat.le_add_left 1 n
    · by_cases h : rc + 1 = 3
      · simp only [h, if_true]
        exact Nat.succ_le_succ (Nat.zero_le n)
      · simp only [h, if_false]
        exact Nat.succ_le_succ (ih (rc + 1))

/-- Claim C6 (amended): the Local Cache makes at most 3 upsert attempts per
call; when the store rejects the upsert on every attempt while online, it
makes exactly 3 attempts separated by delays 1000·2^0 and 1000·2^1 ms, then
surfaces the single non-fatal "will sync when online" error and marks the
state offline, still keeping the freshly written local cache — unless the
exhausting failure is a network request failure, which the outer catch
swallows (see the counterexample theorem). -/
theorem cache_upsert_retry_policy (env : CacheEnv) (messages : List Message)
    (localCache : Option (List Message))
    (hconn : env.connected = true) (huser : env.session.isSome = true)
    (hfail : ∀ k, k < 3 → env.upsertOutcome k = some RequestError.storeRejected) :
    (∀ env2 m2 lc2, (cacheChatMessages env2 m2 lc2).upsertAttempts ≤ 3)
    ∧ cacheChatMessages env messages localCache =
        ⟨some messages, 3, [1000 * 2 ^ 0, 1000 * 2 ^ 1], some willSyncMsg, true⟩ := by
  constructor
  · intro env2 m2 lc2
    unfold cacheChatMessages
    rcases env2.session with _ | u
    · exact Nat.zero_le 3
    · by_cases hc : env2.connected
      · simp only [hc, not_true, if_false]
        have h3 := runUpserts_le env2.upsertOutcome 3 0
        rcases (runUpserts env2.upsertOutcome 0 3).2.2 with _ | e
        · exact h3
        · rcases e
          · exact h3
          · exact h3
      · simp only [hc, not_false_iff, if_true]
        exact Nat.zero_le 3
  · rcases hu : env.session with _ | u
    · rw [hu] at huser; exact absurd huser (by simp)
    · unfold cacheChatMessages
      rw [hu]
      simp only [hconn, not_true, if_false]
      have hrun : runUpserts env.upsertOutcome 0 3 =
          (3, [1000 * 2 ^ 0, 1000 * 2 ^ 1], some RequestError.storeRejected) := by
        unfold runUpserts
        rw [hfail 0 (by omega)]
        simp only [show ¬ (0 + 1 = 3) by omega, if_false]
        unfold runUpserts
        rw [hfail 1 (by omega)]
        simp only [show ¬ (1 + 1 = 3) by omega, if_false]
        unfold runUpserts
        rw [hfail 2 (by omega)]
        simp
      rw [hrun]

def allStoreRejected : Nat → Option RequestError := fun _ => some RequestError.storeRejected

def allNetworkFailed : Nat → Option RequestError := fun _ => some RequestError.networkRequestFailed

def cacheUser : String := "user-1"

/-- Witness for the amended C6 theorem at a concrete environment. -/
theorem cache_upsert_retry_policy_witness :
    (∀ env2 m2 lc2, (cacheChatMessages env2 m2 lc2).upsertAttempts ≤ 3)
    ∧ cacheChatMessages ⟨some cacheUser, true, allStoreRejected⟩ [msgA] none =
        ⟨some [msgA], 3, [1000 * 2 ^ 0, 1000 * 2 ^ 1], some willSyncMsg, true⟩ :=
  cache_upsert_retry_policy ⟨some cacheUser, true, allStoreRejected⟩ [msgA] none
    rfl rfl (fun _ _ => rfl)

/-- Claim C6, counterexample to the claim as stated: when every upsert
attempt fails with the network `TypeError` ("Network request failed") while
online, the exhausted retry loop surfaces NO error and does NOT mark the
state offline — the outer catch filters that error kind out. -/
theorem cache_network_failure_swallowed :
    (cacheChatMessages ⟨some cacheUser, true, allNetworkFailed⟩ [msgA] none).upsertAttempts = 3
    ∧ (cacheChatMessages ⟨some cacheUser, true, allNetworkFailed⟩ [msgA] none).errorMsg = none
    ∧ (cacheChatMessages ⟨some cacheUser, true, allNetworkFailed⟩ [msgA] none).markedOffline = false := by
  refine ⟨rfl, rfl, rfl⟩

end MemAi

namespace MemAi

/-! ### Context Assembly and Query Engine (`handleSend`, `callDeepSeekAPI`)

`callDeepSeekAPI(data, retryCount)`: a guard throws past `MAX_RETRIES`,
otherwise one backend attempt is made; any failure is caught and, while
`retryCount < MAX_RETRIES`, the call waits `RETRY_DELAY * 2 ^ retryCount`
and recurses with `retryCount + 1`; the last failure is rethrown.
The attempt outcome oracle maps the retry counter to the result of that
attempt (covering network errors, non-2xx responses and malformed bodies
alike). The recursion is driven by fuel that always dominates the retry
budget, so the fuel-exhaustion branch is unreachable from the entry point.

`handleSend` is modelled for text-only turns (no media attached): the
fetches of calendar/location/photo context are assumed successful and are
irrelevant to the retry/error claims; the date-window computation they use
is modelled separately below. -/

def MAX_RETRIES : Nat := 3

def RETRY_DELAY : Nat := 1000

deriving instance DecidableEq for Except

structure ApiCallResult where
  attempts : Nat
  delays : List Nat
  result : Except String String
deriving Repr, DecidableEq

def fuelExhaustedMsg : String := "retry fuel exhausted"

def failedAfterRetriesMsg : String := "Failed after 3 retries"

def callDeepSeekAPIGo (attemptOutcome : Nat → Except String String)
    (retryCount : Nat) : Nat → ApiCallResult
  | 0 => ⟨0, [], Except.error fuelExhaustedMsg⟩
  | fuel + 1 =>
    if MAX_RETRIES < retryCount then ⟨0, [], Except.error failedAfterRetriesMsg⟩
    else
      match attemptOutcome retryCount with
      | Except.ok content => ⟨1, [], Except.ok content⟩
      | Except.error e =>
        if retryCount < MAX_RETRIES then
          let r := callDeepSeekAPIGo attemptOutcome (retryCount + 1) fuel
          ⟨r.attempts + 1, RETRY_DELAY * 2 ^ retryCount :: r.delays, r.result⟩
        else ⟨1, [], Except.error e⟩

def callDeepSeekAPI (attemptOutcome : Nat → Except String String) : ApiCallResult :=
  callDeepSeekAPIGo attemptOutcome 0 (MAX_RETRIES + 2)

def offlineSendMsg : String :=
  "You appear to be offline. Please check your internet connection and try again."

def notAuthenticatedMsg : String := "Not authenticated"

def sendFailedChatMsg : String :=
  "Sorry, there was a problem processing your request. Please try again later."

structure SendOutcome where
  messages : List Message
  errorMsg : Option String
  markedOffline : Bool
  attempts : Nat
  delays : List Nat
deriving Repr, DecidableEq

def userPrefix : String := "user_"

/-- `handleSend` for a text-only turn: the empty-input guard, the
connectivity guard, the user-message append, the `Not authenticated` throw
caught by the outer catch (which sets the error state and appends one
system error message), and the completion-backend call whose success
appends the assistant message and whose exhausted failure is caught the
same way. `now` stands for `Date.now()`. -/
def handleSend (input : String) (connected : Bool) (session : Option String)
    (attemptOutcome : Nat → Except String String) (now : Int)
    (msgs : List Message) : SendOutcome :=
  if jsTrim input = "" then ⟨msgs, none, false, 0, []⟩
  else if ¬ connected then ⟨msgs, some offlineSendMsg, true, 0, []⟩
  else
    let userMessage : Message :=
      ⟨userPrefix ++ toString now, MessageType.user, jsTrim input, now, false⟩
    let msgs1 := msgs ++ [userMessage]
    let errMessage : Message :=
      ⟨toString now, MessageType.system, sendFailedChatMsg, now, true⟩
    match session with
    | none => ⟨msgs1 ++ [errMessage], some notAuthenticatedMsg, false, 0, []⟩
    | some _ =>
      let r := callDeepSeekAPI attemptOutcome
      match r.result with
      | Except.ok content =>
        ⟨msgs1 ++ [⟨toString now, MessageType.assistant, content, now, false⟩],
          none, false, r.attempts, r.delays⟩
      | Except.error e => ⟨msgs1 ++ [errMessage], some e, false, r.attempts, r.delays⟩

end MemAi

namespace MemAi

/-! ### Claim C4 -/

def lastErrOf (attemptOutcome : Nat → Except String String) : String :=
  match attemptOutcome MAX_RETRIES with
  | Except.error e => e
  | Except.ok _ => fuelExhaustedMsg

theorem callDeepSeekAPIGo_all_fail (attemptOutcome : Nat → Except String String)
    (hfail : ∀ k, ∃ e, attemptOutcome k = Except.error e) :
    ∀ fuel rc, rc ≤ MAX_RETRIES → MAX_RETRIES - rc < fuel →
      callDeepSeekAPIGo attemptOutcome rc fuel =
        ⟨MAX_RETRIES - rc + 1,
         (List.range (MAX_RETRIES - rc)).map (fun i => RETRY_DELAY * 2 ^ (rc + i)),
         Except.error (lastErrOf attemptOutcome)⟩ := by
  intro fuel
  induction fuel with
  | zero => intro rc h1 h2; omega
  | succ n ih =>
    intro rc h1 h2
    obtain ⟨e, he⟩ := hfail rc
    unfold callDeepSeekAPIGo
    rw [if_neg (by omega), he]
    dsimp only
    by_cases hlt : rc < MAX_RETRIES
    · rw [if_pos hlt]
      have hrec := ih (rc + 1) (by omega) (by omega)
      rw [hrec]
      have hm : MAX_RETRIES - rc = (MAX_RETRIES - (rc + 1)) + 1 := by omega
      rw [hm]
      refine congrArg (fun z => ApiCallResult.mk ((MAX_RETRIES - (rc + 1)) + 1 + 1) z
        (Except.error (lastErrOf attemptOutcome))) ?_
      rw [List.range_succ_eq_map]
      simp only [List.map_cons, List.map_map]
      refine congrArg₂ List.cons (by rw [Nat.add_zero]) ?_
      refine List.map_congr_left ?_
      intro i _
      show RETRY_DELAY * 2 ^ (rc + 1 + i) = RETRY_DELAY * 2 ^ (rc + (i + 1))
      have hexp : rc + 1 + i = rc + (i + 1) := by omega
      rw [hexp]
    · rw [if_neg hlt]
      have hrc : rc = MAX_RETRIES := by omega
      subst hrc
      have h0 : MAX_RETRIES - MAX_RETRIES = 0 := by omega
      rw [h0]
      unfold lastErrOf
      rw [he]
      rfl

theorem callDeepSeekAPI_all_fail (attemptOutcome : Nat → Except String String)
    (hfail : ∀ k, ∃ e, attemptOutcome k = Except.error e) :
    callDeepSeekAPI attemptOutcome =
      ⟨MAX_RETRIES + 1,
        [RETRY_DELAY * 2 ^ 0, RETRY_DELAY * 2 ^ 1, RETRY_DELAY * 2 ^ 2],
        Except.error (lastErrOf attemptOutcome)⟩ := by
  have h := callDeepSeekAPIGo_all_fail attemptOutcome hfail (MAX_RETRIES + 2) 0
    (by omega) (by omega)
  unfold callDeepSeekAPI
  rw [h]
  rfl

/-- Claim C4: when every backend attempt fails, `callDeepSeekAPI` makes
exactly `MAX_RETRIES + 1 = 4` attempts, waiting `RETRY_DELAY * 2 ^ attempt`
between consecutive attempts, and surfaces a single error; `handleSend`
then appends exactly one visible error message to the conversation. -/
theorem retry_bound_single_error (attemptOutcome : Nat → Except String String)
    (input : String) (u : String) (now : Int) (msgs : List Message)
    (hfail : ∀ k, ∃ e, attemptOutcome k = Except.error e)
    (hinput : ¬ jsTrim input = "") :
    (callDeepSeekAPI attemptOutcome).attempts = MAX_RETRIES + 1
    ∧ (callDeepSeekAPI attemptOutcome).delays =
        [RETRY_DELAY * 2 ^ 0, RETRY_DELAY * 2 ^ 1, RETRY_DELAY * 2 ^ 2]
    ∧ (∃ e, (callDeepSeekAPI attemptOutcome).result = Except.error e)
    ∧ (handleSend input true (some u) attemptOutcome now msgs).messages.countP
        (fun m => m.is_error) =
      msgs.countP (fun m => m.is_error) + 1 := by
  have hc := callDeepSeekAPI_all_fail attemptOutcome hfail
  refine ⟨by rw [hc], by rw [hc], ⟨_, by rw [hc]⟩, ?_⟩
  unfold handleSend
  rw [if_neg hinput, if_neg (by simp)]
  rw [hc]
  dsimp only
  simp only [List.countP_append, List.countP_cons, List.countP_nil]
  simp

def failingOutcome : Nat → Except String String :=
  fun _ => Except.error loadFailedMsg

def sampleInput : String := "What did I do today"

/-- Witness for C4 at a concrete always-failing backend. -/
theorem retry_bound_single_error_witness :
    (callDeepSeekAPI failingOutcome).attempts = MAX_RETRIES + 1
    ∧ (callDeepSeekAPI failingOutcome).delays =
        [RETRY_DELAY * 2 ^ 0, RETRY_DELAY * 2 ^ 1, RETRY_DELAY * 2 ^ 2]
    ∧ (∃ e, (callDeepSeekAPI failingOutcome).result = Except.error e)
    ∧ (handleSend sampleInput true (some cacheUser) failingOutcome 42 []).messages.countP
        (fun m => m.is_error) =
      ([] : List Message).countP (fun m => m.is_error) + 1 :=
  retry_bound_single_error failingOutcome sampleInput cacheUser 42 []
    (fun _ => ⟨loadFailedMsg, rfl⟩) (by decide)

end MemAi

namespace MemAi

/-! ### Location Collector (`useLocationTracking.ts`)

Two write paths exist. The background task (`LOCATION_TASK_NAME`) probes
`NetInfo.fetch()` FIRST and returns before any remote call when offline;
without a user it also returns silently; otherwise it reverse-geocodes and
inserts one row. The foreground `watchPositionAsync` callback checks only
the mounted flag and the user — it performs NO connectivity probe — before
inserting. Each function returns the row whose insert it attempts, or
`none` when it attempts no remote write; the source has no offline queue,
so a skipped sample is dropped. -/

structure LocationPlace where
  name : String
  street : Option String
deriving Repr, DecidableEq

structure LocationSample where
  latitude : Int
  longitude : Int
deriving Repr, DecidableEq

structure LocationRecord where
  user_id : String
  timestamp : Int
  latitude : Int
  longitude : Int
  location_label : String
  place_name : String
deriving Repr, DecidableEq

def unknownLocationLabel : String := "Unknown location"

def commaSpace : String := ", "

/-- `placeName` computed from the first reverse-geocoding result. -/
def placeLabel (place : Option LocationPlace) : String :=
  match place with
  | some p => p.name ++ (match p.street with
      | some s => commaSpace ++ s
      | none => "")
  | none => unknownLocationLabel

/-- Ambient state read by the location handlers. The foreground callback
never reads `connected`: the field is carried to state exactly that. -/
structure LocationEnv where
  connected : Bool
  user : Option String
  geocode : Option LocationPlace
  isMounted : Bool

/-- The background location task body. -/
def backgroundLocationTask (env : LocationEnv) (now : Int)
    (sample : LocationSample) : Option LocationRecord :=
  if ¬ env.connected then none
  else
    match env.user with
    | none => none
    | some uid =>
      let label := placeLabel env.geocode
      some ⟨uid, now, sample.latitude, sample.longitude, label, label⟩

/-- The foreground `watchPositionAsync` callback body: gated on the mounted
flag and the session only — connectivity is not consulted. -/
def foregroundLocationCallback (env : LocationEnv) (now : Int)
    (sample : LocationSample) : Option LocationRecord :=
  if ¬ env.isMounted then none
  else
    match env.user with
    | none => none
    | some uid =>
      let label := placeLabel env.geocode
      some ⟨uid, now, sample.latitude, sample.longitude, label, label⟩

end MemAi

namespace MemAi

/-! ### Claim C5 -/

/-- Claim C5 (amended): when connectivity is false, the background location
task attempts no remote write (the sample is dropped — the model, like the
source, has no queue to put it in), and `cacheChatMessages` attempts no
remote upsert while the local cache write, performed before the
connectivity probe, still lands; the foreground location watcher, however,
is not connectivity-gated (see the counterexample theorem). -/
theorem offline_no_remote_write (user : String) (geocode : Option LocationPlace)
    (mounted : Bool) (now : Int) (sample : LocationSample)
    (outcome : Nat → Option RequestError) (messages : List Message)
    (localCache : Option (List Message)) :
    backgroundLocationTask ⟨false, some user, geocode, mounted⟩ now sample = none
    ∧ cacheChatMessages ⟨some user, false, outcome⟩ messages localCache =
        ⟨some messages, 0, [], none, false⟩ := by
  exact ⟨rfl, rfl⟩

def offlineEnv : LocationEnv := ⟨false, some cacheUser, none, true⟩

def sampleLoc : LocationSample := ⟨25, 55⟩

/-- Claim C5, counterexample to the claim as stated ("every sample's remote
write is gated behind a live connectivity check"): with connectivity false,
the foreground watch callback still attempts the remote insert. -/
theorem foreground_write_not_gated :
    offlineEnv.connected = false
    ∧ foregroundLocationCallback offlineEnv 42 sampleLoc =
        some ⟨cacheUser, 42, 25, 55, unknownLocationLabel, unknownLocationLabel⟩ := by
  exact ⟨rfl, rfl⟩

end MemAi

namespace MemAi

/-! ### Collection Coordinator (`useDataCollection`)

The combining effect:

    const errors = [locationTracking.error, photoSync.error,
                    calendarSync.error, error].filter(Boolean);
    if (errors.length > 0) setError(errors.join(', '));
    else setError(null);

`filter(Boolean)` drops `null` and the empty string. -/

def locationPermissionDeniedMsg : String := "Permission to access location was denied"

/-- One execution of the error-combining effect, from the three collectors'
current error strings plus the coordinator's own. -/
def combineErrors (locationError photoError calendarError ownError :
    Option String) : Option String :=
  let errors := ([locationError, photoError, calendarError, ownError].filterMap
    (fun o => o)).filter (fun s => decide (s ≠ ""))
  if errors.length > 0 then some (String.intercalate commaSpace errors) else none

/-- A constituent is clear when it is `null` or the empty string (both are
falsy for `filter(Boolean)`). -/
def clearErr (o : Option String) : Prop := o = none ∨ o = some ""

end MemAi

namespace MemAi

/-! ### Claim C7 -/

theorem combineErrors_eq_none_iff (l p c o : Option String) :
    combineErrors l p c o = none ↔
      clearErr l ∧ clearErr p ∧ clearErr c ∧ clearErr o := by
  unfold combineErrors clearErr
  constructor
  · intro h
    by_contra hne
    have hex : ∃ x ∈ [l, p, c, o], ∃ s, x = some s ∧ s ≠ "" := by
      push_neg at hne
      by_cases hl : l = none ∨ l = some ""
      · by_cases hp : p = none ∨ p = some ""
        · by_cases hc : c = none ∨ c = some ""
          · have ho := hne hl hp hc
            push_neg at ho
            rcases o with _ | s
            · exact absurd rfl ho.1
            · exact ⟨some s, by simp, s, rfl, fun hs => ho.2 (by rw [hs])⟩
          · push_neg at hc
            rcases c with _ | s
            · exact absurd rfl hc.1
            · exact ⟨some s, by simp, s, rfl, fun hs => hc.2 (by rw [hs])⟩
        · push_neg at hp
          rcases p with _ | s
          · exact absurd rfl hp.1
          · exact ⟨some s, by simp, s, rfl, fun hs => hp.2 (by rw [hs])⟩
      · push_neg at hl
        rcases l with _ | s
        · exact absurd rfl hl.1
        · exact ⟨some s, by simp, s, rfl, fun hs => hl.2 (by rw [hs])⟩
    rcases hex with ⟨x, hx, s, rfl, hs⟩
    have hmem : s ∈ ([l, p, c, o].filterMap (fun q => q)).filter
        (fun t => decide (t ≠ "")) :=
      List.mem_filter.mpr ⟨List.mem_filterMap.mpr ⟨some s, hx, rfl⟩, by simp [hs]⟩
    have hpos : 0 < (([l, p, c, o].filterMap (fun q => q)).filter
        (fun t => decide (t ≠ ""))).length := List.length_pos.mpr
      (fun hnil => by rw [hnil] at hmem; exact List.not_mem_nil s hmem)
    rw [if_pos hpos] at h
    exact Option.some_ne_none _ h
  · intro ⟨hl, hp, hc, ho⟩
    have hnil : ([l, p, c, o].filterMap (fun q => q)).filter
        (fun t => decide (t ≠ "")) = [] := by
      rcases hl with rfl | rfl <;> rcases hp with rfl | rfl <;>
        rcases hc with rfl | rfl <;> rcases ho with rfl | rfl <;> rfl
    rw [hnil]
    rfl

/-- Claim C7: the coordinator's combined error is `null` exactly when the
three collectors' error strings and its own are all clear, and when only
the location permission is denied the combined error is exactly the
location message; two simultaneous errors are comma-joined. -/
theorem combined_error_aggregation :
    (∀ l p c o : Option String, combineErrors l p c o = none ↔
      clearErr l ∧ clearErr p ∧ clearErr c ∧ clearErr o)
    ∧ combineErrors (some locationPermissionDeniedMsg) none none none =
        some locationPermissionDeniedMsg
    ∧ combineErrors (some locationPermissionDeniedMsg)
        (some photoPermissionDeniedMsg) none none =
        some (locationPermissionDeniedMsg ++ commaSpace ++ photoPermissionDeniedMsg) := by
  refine ⟨combineErrors_eq_none_iff, by decide, by decide⟩

end MemAi

namespace MemAi

/-! ### Claim C9 -/

/-- Claim C9 (amended): the collectors and the cache/load operations abort
silently when no session or user is present — store untouched, no error
set, no upsert attempted — but the query turn (`handleSend`) does NOT: it
throws `Not authenticated`, which its catch surfaces as a visible error
state plus an appended error message (see the counterexample theorem). -/
theorem silent_abort_on_no_session :
    (∀ (assets : List PhotoAsset) (gp : PhotoAsset → Option GeoPlace)
       (store : List PhotoRecord),
        syncPhotos ⟨PermissionStatus.granted, none, assets, gp⟩ store = (store, none))
    ∧ (∀ (cals : List DeviceCalendar) (store : List CalendarEventRecord),
        syncCalendar ⟨PermissionStatus.granted, none, cals⟩ store = (store, none))
    ∧ (∀ (connected mounted : Bool) (geocode : Option LocationPlace) (now : Int)
       (sample : LocationSample),
        backgroundLocationTask ⟨connected, none, geocode, mounted⟩ now sample = none
        ∧ foregroundLocationCallback ⟨connected, none, geocode, mounted⟩ now sample = none)
    ∧ (∀ (connected : Bool) (outcome : Nat → Option RequestError)
       (messages : List Message) (localCache : Option (List Message)),
        cacheChatMessages ⟨none, connected, outcome⟩ messages localCache =
          ⟨localCache, 0, [], none, false⟩)
    ∧ (∀ (cached : Option (List Message)) (connected : Bool)
       (remote : Except RequestError (List Message)) (current : List Message),
        loadCachedMessages none cached connected remote current = (current, none)) := by
  refine ⟨fun _ _ _ => rfl, fun _ _ => rfl, fun c m _ _ _ => ⟨?_, ?_⟩,
    fun _ _ _ _ => rfl, fun _ _ _ _ => rfl⟩
  · unfold backgroundLocationTask
    rcases c with _ | _ <;> rfl
  · unfold foregroundLocationCallback
    rcases m with _ | _ <;> rfl

/-- Claim C9, counterexample to the claim as stated: `handleSend` with no
active session does not abort silently — it surfaces the thrown
`Not authenticated` as the visible error state and appends one visible
error message to the conversation. -/
theorem handleSend_unauthenticated_loud :
    (handleSend sampleInput true none failingOutcome 42 []).errorMsg =
      some notAuthenticatedMsg
    ∧ (handleSend sampleInput true none failingOutcome 42 []).messages.countP
        (fun m => m.is_error) = 1 := by
  exact ⟨rfl, by decide⟩

end MemAi

namespace MemAi

/-! ### Query-engine date windows (`handleSend`)

The source computes, mutating `today` in place (`setHours`/`setDate` mutate
the receiver and return its new epoch value):

    const today = new Date();
    const startOfDay = new Date(today.setHours(0, 0, 0, 0)).toISOString();
    const endOfDay = new Date(today.setHours(23, 59, 59, 999)).toISOString();
    const startOfWeek =
      new Date(today.setDate(today.getDate() - today.getDay())).toISOString();
    const startOfMonth =
      new Date(today.getFullYear(), today.getMonth(), 1).toISOString();

A JS `Date` is modelled as whole days since 1970-01-01 plus milliseconds
within the day (local time assumed equal to UTC; the claims are about
calendar arithmetic, not zones). Civil conversions follow the standard
proleptic-Gregorian day-count algorithm; months are 1-based internally and
0-based at the `getMonth`/constructor boundary, as in JS. -/

/-- Days since 1970-01-01 of a civil date (year, month 1..12, day). -/
def daysFromCivil (y0 m d : Int) : Int :=
  let y := if m ≤ 2 then y0 - 1 else y0
  let era := (if 0 ≤ y then y else y - 399) / 400
  let yoe := y - era * 400
  let doy := (153 * (if 2 < m then m - 3 else m + 9) + 2) / 5 + d - 1
  let doe := yoe * 365 + yoe / 4 - yoe / 100 + doy
  era * 146097 + doe - 719468

/-- Civil date (year, month 1..12, day) of a days-since-epoch count. -/
def civilFromDays (z0 : Int) : Int × Int × Int :=
  let z := z0 + 719468
  let era := (if 0 ≤ z then z else z - 146096) / 146097
  let doe := z - era * 146097
  let yoe := (doe - doe / 1460 + doe / 36524 - doe / 146096) / 365
  let y := yoe + era * 400
  let doy := doe - (365 * yoe + yoe / 4 - yoe / 100)
  let mp := (5 * doy + 2) / 153
  let d := doy - (153 * mp + 2) / 5 + 1
  let m := if mp < 10 then mp + 3 else mp - 9
  (if m ≤ 2 then y + 1 else y, m, d)

structure JSDate where
  days : Int
  ms : Int
deriving Repr, DecidableEq

def JSDate.getFullYear (t : JSDate) : Int := (civilFromDays t.days).1

/-- JS `getMonth` is 0-based. -/
def JSDate.getMonth (t : JSDate) : Int := (civilFromDays t.days).2.1 - 1

def JSDate.getDate (t : JSDate) : Int := (civilFromDays t.days).2.2

/-- JS `getDay`: day of week, 0 = Sunday (1970-01-01 was a Thursday). -/
def JSDate.getDay (t : JSDate) : Int := (t.days + 4) % 7

/-- JS `setHours(h, m, s, ms)` with in-range arguments: the day part is
unchanged, the time of day is replaced. -/
def JSDate.setHours (t : JSDate) (h m s ms : Int) : JSDate :=
  ⟨t.days, h * 3600000 + m * 60000 + s * 1000 + ms⟩

/-- JS `setDate(d)`: replace the day-of-month, rolling over into adjacent
months for out-of-range `d` (0 is the last day of the previous month);
the time of day is kept. -/
def JSDate.setDate (t : JSDate) (d : Int) : JSDate :=
  let c := civilFromDays t.days
  ⟨daysFromCivil c.1 c.2.1 1 + (d - 1), t.ms⟩

/-- JS `new Date(year, month0, day)` at local midnight. -/
def mkLocalDate (year month0 day : Int) : JSDate :=
  ⟨daysFromCivil year (month0 + 1) day, 0⟩

structure QueryWindows where
  startOfDay : JSDate
  endOfDay : JSDate
  startOfWeek : JSDate
  startOfMonth : JSDate
deriving Repr, DecidableEq

/-- The four window boundaries computed by `handleSend`, reproducing the
in-place mutation sequence of the source. -/
def handleSendWindows (now : JSDate) : QueryWindows :=
  let t1 := now.setHours 0 0 0 0
  let startOfDay := t1
  let t2 := t1.setHours 23 59 59 999
  let endOfDay := t2
  let t3 := t2.setDate (t2.getDate - t2.getDay)
  let startOfWeek := t3
  let startOfMonth := mkLocalDate t3.getFullYear t3.getMonth 1
  ⟨startOfDay, endOfDay, startOfWeek, startOfMonth⟩

/-- Wednesday 2025-04-02, 10:30:00.000 local time. -/
def exampleNow : JSDate := ⟨daysFromCivil 2025 4 2, 37800000⟩

end MemAi

namespace MemAi

/-! ### Claim C8 -/

/-- Claim C8, divergence exhibit: at `now` = Wednesday 2025-04-02 10:30,
the start/end-of-today boundaries are correct, but because `setHours`
mutated `today` to 23:59:59.999 before `setDate` ran, `startOfWeek` is the
week's Sunday (2025-03-30) at END of day, not its start; and because
`setDate` rolled `today` back into March, `startOfMonth` is 2025-03-01 —
the month of the week's Sunday — although the current month is April. -/
theorem handleSendWindows_boundaries_bug :
    (handleSendWindows exampleNow).startOfDay = ⟨daysFromCivil 2025 4 2, 0⟩
    ∧ (handleSendWindows exampleNow).endOfDay = ⟨daysFromCivil 2025 4 2, 86399999⟩
    ∧ exampleNow.getDay = 3
    ∧ (handleSendWindows exampleNow).startOfWeek = ⟨daysFromCivil 2025 3 30, 86399999⟩
    ∧ (handleSendWindows exampleNow).startOfWeek.ms ≠ 0
    ∧ (handleSendWindows exampleNow).startOfMonth = ⟨daysFromCivil 2025 3 1, 0⟩
    ∧ exampleNow.getMonth = 3
    ∧ (handleSendWindows exampleNow).startOfMonth.getMonth = 2 := by
  decide

end MemAi
